import Mathlib

/-!
# Verification development for AmarsDing/lib

Shallow embedding of the parts of the toolkit that the specification's claims
are about:

* `os/ycache/ycache_adapter_memory_item.go`         (`adapterMemoryItem.IsExpired`)
* `os/ycache/ycache_adapter_memory_expire_sets.go`  (`adapterMemoryExpireSets`)
* `os/yfile/yfile_replace.go`                       (`ReplaceFileFunc`)
* `os/yfile/yfile_cache.go`                         (`GetBytesWithCache`, `cacheKey`)
* `util/yutil/yutil_comparator.go`                  (`ComparatorInt`, `ComparatorUint8`, `ComparatorByte`)
* `encoding/yjson/yjson_api_new_load.go`            (`IsValidDataType`)
* `os/ysession/ysession_session.go`, `ysession_manager.go` (`Session`, `Manager`)
* `os/ycfg/ycfg.go`, `ycfg_config.go`               (`SetContent`, `GetContent`, `Config.SetPath`)
* `os/ycron/ycron_entry.go`                         (`Entry.SetTimes`, `Entry.check`)

Conventions: Go `int64`/`int` values are `Int`, with an explicit wrap to the
64-bit two's complement range where the source does arithmetic; the wall clock
`ytime.TimestampMilli()` is an explicit argument `now`; pointers are
`Option Nat` (`none` is `nil`); mutexes are dropped (the model is sequential).
-/

namespace Ycache

/-! ## `ycache_adapter_memory_item.go` -/

/-- The cache item of the memory adapter: payload `v` and expire timestamp `e`
in milliseconds (Go `int64`). -/
structure adapterMemoryItem (α : Type) where
  v : α
  e : Int
deriving DecidableEq, Repr

/-- Source `adapterMemoryItem.IsExpired`; `now` is `ytime.TimestampMilli()`.
```go
if item.e >= ytime.TimestampMilli() { return false }
return true
``` -/
def adapterMemoryItem.IsExpired {α : Type} (item : adapterMemoryItem α) (now : Int) : Bool :=
  if item.e ≥ now then false else true

/-! ## The cache store's read path -/

/-- The main table of the cache store: key to item. -/
abbrev CacheTable (α : Type) := String → Option (adapterMemoryItem α)

/-- Modelled from the spec: `CacheStore.Get`, whose source file is not part of the
sources at hand. "look up Entry; if absent or `IsExpired()`, report not-found (and,
opportunistically, may remove the dead entry immediately -- lazy eviction on
read). Otherwise return the value." The flag `evict` chooses whether the dead
entry is removed on read; the liveness test is the source's `IsExpired`. The
result is `(value, found)` as an `Option`, together with the table afterwards. -/
def CacheStore.Get {α : Type} (evict : Bool) (data : CacheTable α) (now : Int) (key : String) :
    Option α × CacheTable α :=
  match data key with
  | none => (none, data)
  | some item =>
    if item.IsExpired now then
      (none, if evict then Function.update data key none else data)
    else
      (some item.v, data)

/-! ## `ycache_adapter_memory_expire_sets.go` -/

/-- A `*yset.Set`: `none` is the nil pointer, `some a` the set object at address `a`. -/
abbrev SetPtr := Option Nat

/-- Source `adapterMemoryExpireSets`: the Go map `expireSets map[int64]*yset.Set`, as a
partial function from the expiring timestamp to the stored pointer (`none`: the key
is not in the map). The `sync.RWMutex` is dropped in the sequential model. -/
structure adapterMemoryExpireSets where
  expireSets : Int → Option SetPtr

/-- The index together with the `yset.Set` objects allocated so far: the set at
address `a` has the member keys `sets[a]`. -/
structure IndexState where
  sets : List (List String)
  d : adapterMemoryExpireSets

/-- Modelled from the spec: `yset.New`, of the package `container/yset` that is not
among the sources: "exactly one Set object is created"; a fresh set object with no
member keys is allocated and its (non-nil) pointer returned. -/
def ysetNew (sets : List (List String)) : SetPtr × List (List String) :=
  (some sets.length, sets ++ [[]])

/-- The member keys of the set behind a pointer, `none` for nil or an address
that is not allocated. -/
def members (st : IndexState) (p : SetPtr) : Option (List String) :=
  match p with
  | none => none
  | some a => st.sets[a]?

/-- Source `newAdapterMemoryExpireSets`: `make(map[int64]*yset.Set)`. -/
def newAdapterMemoryExpireSets : adapterMemoryExpireSets :=
  { expireSets := fun _ => none }

/-- Source `adapterMemoryExpireSets.Get`: `result = d.expireSets[key]`, the zero value
nil for a key that is not in the map. Returns the result and the state after. -/
def adapterMemoryExpireSets.Get (st : IndexState) (key : Int) : SetPtr × IndexState :=
  let result : SetPtr :=
    match st.d.expireSets key with
    | some p => p
    | none => none
  (result, st)

/-- Source `adapterMemoryExpireSets.GetOrNew`.
```go
if result = d.Get(key); result != nil { return }
if es, ok := d.expireSets[key]; ok { result = es }
else { result = yset.New(true); d.expireSets[key] = result }
``` -/
def adapterMemoryExpireSets.GetOrNew (st : IndexState) (key : Int) : SetPtr × IndexState :=
  let (result, st1) := adapterMemoryExpireSets.Get st key
  if result ≠ none then
    (result, st1)
  else
    match st1.d.expireSets key with
    | some es => (es, st1)
    | none =>
      let (fresh, sets) := ysetNew st1.sets
      (fresh, { sets := sets, d := { expireSets := Function.update st1.d.expireSets key (some fresh) } })

/-- Source `adapterMemoryExpireSets.Delete`: `delete(d.expireSets, key)`. -/
def adapterMemoryExpireSets.Delete (st : IndexState) (key : Int) : IndexState :=
  { st with d := { expireSets := Function.update st.d.expireSets key none } }

/-- Modelled from the spec: `yset.Set.Add` through a pointer the index has handed out
("membership mutation"), of the package `container/yset` that is not among the
sources: the key becomes a member of the set at address `a`; the index map is not
touched. -/
def ysetAdd (st : IndexState) (a : Nat) (key : String) : IndexState :=
  match st.sets[a]? with
  | some ms => { st with sets := st.sets.set a (if key ∈ ms then ms else key :: ms) }
  | none => st

/-- The states of the index reachable from `newAdapterMemoryExpireSets()` (with any
set objects already allocated elsewhere) by `Get`, `GetOrNew` and `Delete` calls, and
by callers adding keys to set objects. -/
inductive Reachable : IndexState → Prop
  | init (sets : List (List String)) : Reachable { sets := sets, d := newAdapterMemoryExpireSets }
  | get (st : IndexState) (key : Int) :
      Reachable st → Reachable (adapterMemoryExpireSets.Get st key).2
  | getOrNew (st : IndexState) (key : Int) :
      Reachable st → Reachable (adapterMemoryExpireSets.GetOrNew st key).2
  | delete (st : IndexState) (key : Int) :
      Reachable st → Reachable (adapterMemoryExpireSets.Delete st key)
  | add (st : IndexState) (a : Nat) (key : String) :
      Reachable st → Reachable (ysetAdd st a key)

/-- No nil pointer is stored as a bucket (the map holds only sets made by
`GetOrNew`). -/
def NoNilStored (st : IndexState) : Prop :=
  ∀ key, st.d.expireSets key ≠ some none

/-- Every stored bucket is a non-nil pointer to an allocated set. -/
def StoredAllocated (st : IndexState) : Prop :=
  ∀ key p, st.d.expireSets key = some p → ∃ a, p = some a ∧ a < st.sets.length

end Ycache

namespace Yfile

/-! ## `yfile_replace.go` -/

/-- Source `ReplaceFileFunc`. The helpers `GetContents` and `PutContents` of the package
are not among the sources and are taken as parameters over a file-system state `FS`:
`GetContents fs path` is the content read, `PutContents fs path content` the error
(`none` is nil) and the file system after the write. Go's `len` of a string is its
length in bytes.
```go
data := GetContents(path)
result := f(path, data)
if len(data) != len(result) && data != result { return PutContents(path, result) }
return nil
``` -/
def ReplaceFileFunc {FS Err : Type} (GetContents : FS → String → String)
    (PutContents : FS → String → String → Option Err × FS)
    (f : String → String → String) (path : String) (fs : FS) : Option Err × FS :=
  let data := GetContents fs path
  let result := f path data
  if data.utf8ByteSize ≠ result.utf8ByteSize ∧ data ≠ result then
    PutContents fs path result
  else
    (none, fs)

/-- A small in-memory file system to run `ReplaceFileFunc` on: path and content of
each file. -/
abbrev MemFS := List (String × String)

/-- Reading from `MemFS`: the content of the file, empty when there is none. -/
def MemFS.GetContents (fs : MemFS) (path : String) : String :=
  (fs.lookup path).getD ""

/-- Writing to `MemFS`: replaces the file and never fails. -/
def MemFS.PutContents (fs : MemFS) (path : String) (content : String) : Option String × MemFS :=
  (none, (path, content) :: fs.filter (fun e => e.1 ≠ path))

end Yfile

namespace Yutil

/-! ## `yutil_comparator.go` -/

/-- The value of a Go `int` (64-bit two's complement) that an exact integer wraps to. -/
def wrapInt64 (x : Int) : Int :=
  (x + 2 ^ 63) % 2 ^ 64 - 2 ^ 63

/-- Source `ComparatorInt`: `return yconv.Int(a) - yconv.Int(b)`, for `a` and `b` that
are already `int` (the conversion returns them as they are); the subtraction is
Go's wrapping `int` subtraction. -/
def ComparatorInt (a b : Int) : Int :=
  wrapInt64 (a - b)

end Yutil

namespace Yutil

/-- The exact value of a Go `uint8` expression after wrapping mod 2^8. -/
def wrapUint8 (x : Int) : Int :=
  x % 2 ^ 8

/-- Source `ComparatorUint8`: `return int(yconv.Uint8(a) - yconv.Uint8(b))`, for `a` and `b`
that are already `uint8`; the subtraction is done in `uint8` and then converted. -/
def ComparatorUint8 (a b : Int) : Int :=
  wrapUint8 (a - b)

/-- Source `ComparatorByte`: `return int(yconv.Byte(a) - yconv.Byte(b))`; `byte` is
`uint8`. -/
def ComparatorByte (a b : Int) : Int :=
  wrapUint8 (a - b)

end Yutil

namespace Yjson

/-! ## `yjson_api_new_load.go` -/

/-- Source `IsValidDataType`. Indexing `dataType[0]` and slicing `dataType[1:]` are
checked: the result is `none` where Go would stop with an index out of range. The
byte `'.'` is a one-byte character, so the first byte is `'.'` exactly when the
first character is, and `[1:]` drops that character.
```go
if dataType == "" { return false }
if dataType[0] == '.' { dataType = dataType[1:] }
switch dataType {
case "json", "js", "xml", "yaml", "yml", "toml", "ini": return true
}
return false
``` -/
def IsValidDataType (dataType : String) : Option Bool :=
  if dataType = "" then
    some false
  else
    match dataType.data[0]? with
    | none => none
    | some c =>
      let dataType : String := if c = '.' then String.mk (dataType.data.drop 1) else dataType
      if dataType = "json" ∨ dataType = "js" ∨ dataType = "xml" ∨ dataType = "yaml" ∨
          dataType = "yml" ∨ dataType = "toml" ∨ dataType = "ini" then
        some true
      else
        some false

/-- The data type names the claim lists. -/
def validDataTypes : List String :=
  ["json", "js", "xml", "yaml", "yml", "toml", "ini"]

/-- The claim's wording: the name after removing at most one leading `'.'`. -/
def stripLeadingDot (t : String) : String :=
  match t.data with
  | '.' :: rest => String.mk rest
  | _ => t

end Yjson

namespace Ysession

/-! ## `ysession_session.go`, `ysession_manager.go` -/

/-- A Go `interface{}` value: `none` is nil, `some x` a value that is not nil. -/
abbrev Any := Option String

/-- Modelled from the spec: `ymap.StrAnyMap`, of the package `container/ymap` that is not
among the sources; the "session data snapshot", a map from string keys to
`interface{}` values, here the list of its entries. -/
structure StrAnyMap where
  entries : List (String × Any)
deriving DecidableEq, Repr

/-- Value stored under `key`, nil when there is none (`StrAnyMap.Get`). -/
def StrAnyMap.Get (m : StrAnyMap) (key : String) : Any :=
  match m.entries.lookup key with
  | some v => v
  | none => none

/-- Number of entries (`StrAnyMap.Size`). -/
def StrAnyMap.Size (m : StrAnyMap) : Nat :=
  m.entries.length

/-- Source `Session`; `data` is a pointer (`none` is nil), `idFunc` a function value
(`none` is nil); the manager is passed along separately. -/
structure Session where
  id : String
  data : Option StrAnyMap
  dirty : Bool
  start : Bool
  idFunc : Option (Int → String)

/-- Source `Manager`: `ttl` (a `time.Duration`), the `storage` interface value (`none`
is nil, `some st` a storage in state `st`) and the TTL cache `sessionData`. -/
structure Manager (σ C : Type) where
  ttl : Int
  storage : Option σ
  sessionData : C

/-- The collaborators of the session code whose sources are not at hand, as
parameters: the methods of the `Storage` interface over a storage state `σ` (an
error result is `some`), `Get` and `Set` of the `ycache.Cache` in state `C`, and the
id made by `NewSessionId()`. -/
structure Env (σ C : Type) where
  cacheGet : C → String → Option StrAnyMap
  cacheSet : C → String → StrAnyMap → Int → C
  storageNew : σ → Int → String × σ
  storageGet : σ → String → String → Any × σ
  storageGetSession : σ → String → Int → Option StrAnyMap → (Option StrAnyMap × Option String) × σ
  storageSetSession : σ → String → StrAnyMap → Int → Option String × σ
  storageUpdateTTL : σ → String → Int → Option String × σ
  newSessionId : String

/-- Source `Manager.UpdateSessionTTL`: `m.sessionData.Set(sessionId, data, m.ttl)`. -/
def Manager.UpdateSessionTTL {σ C : Type} (E : Env σ C) (m : Manager σ C)
    (sessionId : String) (data : StrAnyMap) : Manager σ C :=
  { m with sessionData := E.cacheSet m.sessionData sessionId data m.ttl }

/-- Source `Session.init`, first block (`if s.id != ""`): the data is taken from the
manager's cache when it has it, then from the storage when there is one (the error
of `GetSession` is only logged). -/
def Session.initRestore {σ C : Type} (E : Env σ C) (s : Session) (m : Manager σ C) :
    Session × Manager σ C :=
  if s.id ≠ "" then
    let s1 : Session :=
      match E.cacheGet m.sessionData s.id with
      | some r => { s with data := some r }
      | none => s
    match m.storage with
    | some st =>
      let r := E.storageGetSession st s1.id m.ttl s1.data
      ({ s1 with data := r.1.1 }, { m with storage := some r.2 })
    | none => (s1, m)
  else
    (s, m)

/-- Source `Session.init`, the lazy initialization. A method call on the nil storage
is a panic (`Except.error`).
```go
if s.start { return }
if s.id != "" { ... }
if s.id == "" && s.idFunc != nil { s.id = s.idFunc(s.manager.ttl) }
if s.id == "" { s.id = s.manager.storage.New(s.manager.ttl) }
if s.id == "" { s.id = NewSessionId() }
if s.data == nil { s.data = ymap.NewStrAnyMap(true) }
s.start = true
``` -/
def Session.init {σ C : Type} (E : Env σ C) (s : Session) (m : Manager σ C) :
    Except String (Session × Manager σ C) :=
  if s.start then
    .ok (s, m)
  else
    let (s1, m1) := Session.initRestore E s m
    let s2 : Session :=
      if s1.id = "" then
        match s1.idFunc with
        | some f => { s1 with id := f m1.ttl }
        | none => s1
      else s1
    let r3 : Except String (Session × Manager σ C) :=
      if s2.id = "" then
        match m1.storage with
        | some st =>
          let r := E.storageNew st m1.ttl
          .ok ({ s2 with id := r.1 }, { m1 with storage := some r.2 })
        | none => .error "nil pointer dereference"
      else .ok (s2, m1)
    match r3 with
    | .error e => .error e
    | .ok (s3, m3) =>
      let s4 : Session := if s3.id = "" then { s3 with id := E.newSessionId } else s3
      let s5 : Session :=
        match s4.data with
        | none => { s4 with data := some { entries := [] } }
        | some _ => s4
      .ok ({ s5 with start := true }, m3)

/-- Source `Session.Get`; `dflt` is the variadic `def ...interface{}`. Returns the value
together with the session and manager after the call.
```go
if s.id == "" { return nil }
s.init()
if v := s.manager.storage.Get(s.id, key); v != nil { return v }
if v := s.data.Get(key); v != nil { return v }
if len(def) > 0 { return def[0] }
return nil
``` -/
def Session.Get {σ C : Type} (E : Env σ C) (s : Session) (m : Manager σ C) (key : String)
    (dflt : List Any) : Except String (Any × Session × Manager σ C) :=
  if s.id = "" then
    .ok (none, s, m)
  else
    match Session.init E s m with
    | .error e => .error e
    | .ok (s1, m1) =>
      match m1.storage with
      | none => .error "nil pointer dereference"
      | some st =>
        let r := E.storageGet st s1.id key
        let m2 : Manager σ C := { m1 with storage := some r.2 }
        if r.1 ≠ none then
          .ok (r.1, s1, m2)
        else
          match s1.data with
          | none => .error "nil pointer dereference"
          | some data =>
            if data.Get key ≠ none then
              .ok (data.Get key, s1, m2)
            else
              match dflt with
              | d0 :: _ => .ok (d0, s1, m2)
              | [] => .ok (none, s1, m2)

/-- Source `Session.SetId`: the error (`some`) and the session after the call. -/
def Session.SetId (s : Session) (id : String) : Option String × Session :=
  if s.start then
    (some "session already started", s)
  else
    (none, { s with id := id })

/-- Source `Session.SetIdFunc`: the error (`some`) and the session after the call. -/
def Session.SetIdFunc (s : Session) (f : Int → String) : Option String × Session :=
  if s.start then
    (some "session already started", s)
  else
    (none, { s with idFunc := some f })

/-- Source `Session.Close`, the storage block: the error of the storage call made
(`SetSession` when dirty, `UpdateTTL` when there are entries, none otherwise or
without storage) and the manager afterwards. -/
def Session.closeStorage {σ C : Type} (E : Env σ C) (s : Session) (m : Manager σ C)
    (data : StrAnyMap) : Option String × Manager σ C :=
  match m.storage with
  | some st =>
    if s.dirty then
      let r := E.storageSetSession st s.id data m.ttl
      (r.1, { m with storage := some r.2 })
    else if data.Size > 0 then
      let r := E.storageUpdateTTL st s.id m.ttl
      (r.1, { m with storage := some r.2 })
    else
      (none, m)
  | none => (none, m)

/-- Source `Session.Close`: the value it panics with (`none`: it returns) and the
manager afterwards.
```go
if s.start && s.id != "" {
    size := s.data.Size()
    if s.manager.storage != nil { ... panic(err) ... }
    if s.dirty || size > 0 { s.manager.UpdateSessionTTL(s.id, s.data) }
}
``` -/
def Session.Close {σ C : Type} (E : Env σ C) (s : Session) (m : Manager σ C) :
    Option String × Manager σ C :=
  if s.start ∧ s.id ≠ "" then
    match s.data with
    | none => (some "nil pointer dereference", m)
    | some data =>
      match Session.closeStorage E s m data with
      | (some err, m1) => (some err, m1)
      | (none, m1) =>
        if s.dirty ∨ data.Size > 0 then
          (none, Manager.UpdateSessionTTL E m1 s.id data)
        else
          (none, m1)
  else
    (none, m)

/-- A concrete set of collaborators to run the session code on: the storage keeps
no session data (`Get` is nil, `GetSession` hands the data back, `New` makes no id)
and its writes fail exactly when its state is `true`; the cache is the list of the
`Set` calls it received. -/
def sampleEnv : Env Bool (List (String × StrAnyMap × Int)) where
  cacheGet := fun c id => (c.lookup id).map (fun e => e.1)
  cacheSet := fun c id data ttl => (id, data, ttl) :: c
  storageNew := fun st _ => ("", st)
  storageGet := fun st _ _ => (none, st)
  storageGetSession := fun st _ _ data => ((data, none), st)
  storageSetSession := fun st _ _ _ => (if st then some "write failed" else none, st)
  storageUpdateTTL := fun st _ _ => (if st then some "write failed" else none, st)
  newSessionId := "generated-session-id"

end Ysession

namespace Ycfg

/-! ## `ycfg.go`, `ycfg_config.go` -/

/-- Source constant `DefaultConfigFile`. -/
def DefaultConfigFile : String := "config.toml"

/-- Source `Config`: `searchPaths` is the content of the `*yarray.StrArray`, `jsonMap` the
`*ymap.StrAnyMap` of parsed files (file name to the handle of its parsed object). -/
structure Config where
  defaultName : String
  searchPaths : List String
  jsonMap : String → Option Nat
  violenceCheck : Bool

/-- The package-level variables `instances` (name to `*Config`) and
`customConfigContentMap` (file name to content). -/
structure Globals where
  instances : List (String × Config)
  customConfigContentMap : String → Option String

/-- Source `SetContent`; `file` is the variadic `file ...string`.
```go
name := DefaultConfigFile
if len(file) > 0 { name = file[0] }
instances.LockFunc(func(m map[string]interface{}) {
    if customConfigContentMap.Contains(name) {
        for _, v := range m { v.(*Config).jsonMap.Remove(name) }
    }
    customConfigContentMap.Set(name, content)
})
``` -/
def SetContent (g : Globals) (content : String) (file : List String) : Globals :=
  let name : String :=
    match file with
    | f :: _ => f
    | [] => DefaultConfigFile
  let instances : List (String × Config) :=
    if (g.customConfigContentMap name).isSome then
      g.instances.map (fun kv => (kv.1, { kv.2 with jsonMap := Function.update kv.2.jsonMap name none }))
    else
      g.instances
  { instances := instances,
    customConfigContentMap := Function.update g.customConfigContentMap name (some content) }

/-- Source `GetContent`: `customConfigContentMap.Get(name)`, the empty string for a name
that is not in the map. -/
def GetContent (g : Globals) (file : List String) : String :=
  let name : String :=
    match file with
    | f :: _ => f
    | [] => DefaultConfigFile
  match g.customConfigContentMap name with
  | some content => content
  | none => ""

/-- The path helpers `SetPath` calls, whose packages are not among the sources, as
parameters: `yres.Get(path)` (`some isDir` when the resource manager has the path),
`yfile.RealPath` (the empty string when the path does not exist), `yspath.Search` (the
path found under a root, or the empty string) and `yfile.IsDir`. -/
structure PathEnv where
  resGet : String → Option Bool
  realPath : String → String
  spathSearch : String → String → String
  isDir : String → Bool

/-- The loop over the search paths in `SetPath`: the first non-empty result of
`yspath.Search(v, path)`, the empty string when there is none. -/
def searchRelative (P : PathEnv) (path : String) : List String → String
  | [] => ""
  | v :: rest =>
    if P.spathSearch v path ≠ "" then P.spathSearch v path else searchRelative P path rest

/-- Source `Config.SetPath`, the first part: `realPath` and `isDir` of the given path. -/
def Config.resolvePath (P : PathEnv) (c : Config) (path : String) : String × Bool :=
  match P.resGet path with
  | some isDir => (path, isDir)
  | none =>
    let realPath : String :=
      if P.realPath path = "" then searchRelative P path c.searchPaths else P.realPath path
    (realPath, if realPath ≠ "" then P.isDir realPath else false)

/-- `StrArray.Search`: the index of the value, -1 when it is not in the array. -/
def strArraySearch (a : List String) (v : String) : Int :=
  if v ∈ a then (a.indexOf v : Int) else -1

/-- Source `Config.SetPath`: the error (`none` is nil) and the config after the call.
```go
if realPath == "" { ...; return err }
if !isDir { ...; return err }
if c.searchPaths.Search(realPath) != -1 { return nil }
c.jsonMap.Clear()
c.searchPaths.Clear()
c.searchPaths.Append(realPath)
return nil
``` -/
def Config.SetPath (P : PathEnv) (c : Config) (path : String) : Option String × Config :=
  let r := Config.resolvePath P c path
  if r.1 = "" then
    (some "[gcfg] SetPath failed: path does not exist", c)
  else if r.2 = false then
    (some "[gcfg] SetPath failed: path should be directory type", c)
  else if strArraySearch c.searchPaths r.1 ≠ -1 then
    (none, c)
  else
    (none, { c with jsonMap := fun _ => none, searchPaths := [r.1] })

/-- A file system to run `SetPath` on: no resources, every path exists as a
directory and is its own real path. -/
def allDirs : PathEnv where
  resGet := fun _ => none
  realPath := fun p => p
  spathSearch := fun _ _ => ""
  isDir := fun _ => true

end Ycfg

namespace Ycron

/-! ## `ycron_entry.go` -/

/-- The status values `StatusReady`, `StatusRunning`, `StatusStopped`, `StatusClosed`. -/
inductive Status where
  | ready
  | running
  | stopped
  | closed
deriving DecidableEq, Repr

/-- The mutable state behind a cron `Entry`: the counter `times` (a `*ytype.Int`), the
status of the timer entry `entry.entry`, whether `Close()` has removed the entry from
the cron, and how many times `Job` has been executed. -/
structure Entry where
  times : Int
  timerStatus : Status
  removed : Bool
  runs : Nat
deriving DecidableEq, Repr

/-- Source `Entry.SetTimes`: `entry.times.Set(times)`. -/
def Entry.SetTimes (entry : Entry) (times : Int) : Entry :=
  { entry with times := times }

/-- Source `Entry.Close`: removes the entry from the cron and closes the timer entry. -/
def Entry.Close (entry : Entry) : Entry :=
  { entry with removed := true, timerStatus := Status.closed }

/-- Source `Entry.check`, the part after the running times check: the counter is
reset to `defaultTimes` when it lies between 1000000000 and 2000000000, the job is
executed, and the deferred function closes the entry when the timer entry is
closed. `times` is the value the decrement returned. -/
def Entry.runJob (defaultTimes : Int) (times : Int) (entry : Entry) : Entry :=
  let e1 : Entry :=
    if times < 2000000000 ∧ times > 1000000000 then { entry with times := defaultTimes } else entry
  let e2 : Entry := { e1 with runs := e1.runs + 1 }
  if e2.timerStatus = Status.closed then e2.Close else e2

/-- Source `Entry.check`; `meet` is `entry.schedule.meet(time.Now())`, `cronStatus` is
`entry.cron.status.Val()`, `defaultTimes` the package constant. `times.Add(-1)` is a
wrapping 64-bit addition that returns the new value; `SetStatus` returns the status
the timer entry had before.
```go
times := entry.times.Add(-1)
if times <= 0 {
    if entry.entry.SetStatus(StatusClosed) == StatusClosed || times < 0 { return }
}
if times < 2000000000 && times > 1000000000 { entry.times.Set(defaultTimes) }
... entry.Job()
``` -/
def Entry.check (defaultTimes : Int) (meet : Bool) (cronStatus : Status) (entry : Entry) : Entry :=
  if meet then
    match cronStatus with
    | Status.stopped => entry
    | Status.closed => entry.Close
    | _ =>
      let times : Int := Yutil.wrapInt64 (entry.times - 1)
      let e1 : Entry := { entry with times := times }
      if times ≤ 0 then
        let e2 : Entry := { e1 with timerStatus := Status.closed }
        if e1.timerStatus = Status.closed ∨ times < 0 then
          e2
        else
          Entry.runJob defaultTimes times e2
      else
        Entry.runJob defaultTimes times e1
  else
    entry

/-- A sequence of calls to `check`, each with its `meet` result and cron status. -/
def Entry.checks (defaultTimes : Int) : List (Bool × Status) → Entry → Entry
  | [], entry => entry
  | c :: rest, entry => Entry.checks defaultTimes rest (Entry.check defaultTimes c.1 c.2 entry)

end Ycron

namespace Ycache

/-! ## The cache store's write path -/

/-- Modelled from the spec: `CacheStore.Set`, whose source file is not part of the
sources at hand. "computes `expireAt = now + ttl` (or sentinel if ttl <= 0 meaning
'forever'), inserts/overwrites Entry"; `forever` is the sentinel, `ttl` is in
milliseconds like `now`. The registration of the key in the expire-bucket index is
left out of this table. -/
def CacheStore.Set {α : Type} (forever : Int) (data : CacheTable α) (now : Int) (key : String)
    (value : α) (ttl : Int) : CacheTable α :=
  Function.update data key (some { v := value, e := if ttl ≤ 0 then forever else now + ttl })

/-- Modelled from the spec: `CacheStore.Remove` for one key, whose source file is not
part of the sources at hand. "deletes entries and returns removed values". -/
def CacheStore.Remove {α : Type} (data : CacheTable α) (key : String) :
    Option α × CacheTable α :=
  ((data key).map (fun item => item.v), Function.update data key none)

/-- Modelled from the spec: `CacheStore.GetOrSetFuncLock` in sequential use, whose
source file is not part of the sources at hand. "if key present and alive,
return it. Otherwise ... invoke `computeFn` exactly once, store its result with
`ttl`, and return it ... `computeFn` may return an error, which is propagated ... and
nothing is cached." The compute function works on a state `R` of its own. Returns
the value, the error, the table and the state of the compute function afterwards. -/
def CacheStore.GetOrSetFuncLock {α R : Type} (forever : Int) (data : CacheTable α) (now : Int)
    (key : String) (computeFn : R → (α × Option String) × R) (ttl : Int) (r : R) :
    (Option α × Option String) × CacheTable α × R :=
  match (CacheStore.Get false data now key).1 with
  | some v => ((some v, none), data, r)
  | none =>
    let c := computeFn r
    match c.1.2 with
    | some err => ((none, some err), data, c.2)
    | none => ((some c.1.1, none), CacheStore.Set forever data now key c.1.1 ttl, c.2)

end Ycache

namespace Yfile

/-! ## `yfile_cache.go` -/

/-- The table of `internalCache`: the values are file contents, `none` for nil. -/
abbrev FileCache := Ycache.CacheTable (Option String)

/-- What `GetBytesWithCache` works on: the table of `internalCache`, and the callbacks
handed to `yfsnotify.Add`, each with the path it watches; a callback is given by
what it does to the cache table when it is fired. -/
structure CacheWorld where
  cache : FileCache
  watches : List (String × (FileCache → FileCache))

/-- Source `cacheKey`. -/
def cacheKey (path : String) : String :=
  "gf.gfile.cache:" ++ path

/-- Source `GetBytesWithCache`; `duration` is the variadic argument, `cacheExpire` the
configured default, `GetBytes` the file read (`none` is nil), `forever` the cache's
never-expires sentinel; durations are in milliseconds.
```go
key := cacheKey(path)
expire := cacheExpire
if len(duration) > 0 { expire = duration[0] }
r, _ := internalCache.GetOrSetFuncLock(key, func() (interface{}, error) {
    b := GetBytes(path)
    if b != nil {
        _, _ = yfsnotify.Add(path, func(event *yfsnotify.Event) {
            internalCache.Remove(key)
            yfsnotify.Exit()
        })
    }
    return b, nil
}, expire)
if r != nil { return r.([]byte) }
return nil
``` -/
def GetBytesWithCache (forever cacheExpire : Int) (GetBytes : String → Option String)
    (w : CacheWorld) (now : Int) (path : String) (duration : List Int) :
    Option String × CacheWorld :=
  let key := cacheKey path
  let expire : Int :=
    match duration with
    | d :: _ => d
    | [] => cacheExpire
  let r := Ycache.CacheStore.GetOrSetFuncLock forever w.cache now key
    (fun (watches : List (String × (FileCache → FileCache))) =>
      let b := GetBytes path
      let watches :=
        if b ≠ none then
          (path, fun (c : FileCache) => (Ycache.CacheStore.Remove c key).2) :: watches
        else
          watches
      ((b, none), watches))
    expire w.watches
  let result : Option String :=
    match r.1.1 with
    | some v => v
    | none => none
  (result, { cache := r.2.1, watches := r.2.2 })

end Yfile

open Ycache
open Ysession

/-! ## Theorems: cache item -/

/-- C1 (counterexample): at `now == expireAt` the source's `IsExpired` returns false,
so "true iff now >= expireAt" fails for the entry with `e = 1000` at `now = 1000`. -/
theorem C1_counterexample :
    ¬ ((adapterMemoryItem.mk "v" 1000).IsExpired 1000 = true ↔ (1000 : Int) ≥ 1000) := by
  decide

/-- C1 (amended): for every cache entry and every current time `now`, `IsExpired`
returns true if and only if `now > expireAt`; at `now == expireAt` it returns false
(the entry is still alive during the millisecond of its expiry). -/
theorem C1_isExpired_iff_strict {α : Type} (item : adapterMemoryItem α) (now : Int) :
    (item.IsExpired now = true ↔ now > item.e) ∧ item.IsExpired item.e = false := by
  unfold adapterMemoryItem.IsExpired
  constructor
  · by_cases h : item.e ≥ now
    · simp [h]
    · simp [h]; omega
  · simp

/-- C2 (counterexample): an entry whose `expireAt` is 0 is reported expired at
`now = 1`; `IsExpired` has no never-expires case. -/
theorem C2_counterexample : (adapterMemoryItem.mk "v" 0).IsExpired 1 = true := by
  decide

/-- C2 (amended): `IsExpired` treats `expireAt == 0` like any other timestamp: for an
entry whose `expireAt` is 0 it returns false exactly when `now <= 0`, and true for
every `now > 0`. -/
theorem C2_isExpired_zero {α : Type} (v : α) (now : Int) :
    ((adapterMemoryItem.mk v 0).IsExpired now = false ↔ now ≤ 0) ∧
    ((adapterMemoryItem.mk v 0).IsExpired now = true ↔ now > 0) := by
  unfold adapterMemoryItem.IsExpired
  by_cases h : (0 : Int) ≥ now
  · simp [h]
  · simp [h]; omega

/-- C3: for every table of the cache store (so in every reachable state, swept or
not), every current time and every key, when `Get` reports `(value, found = true)`
the entry stored under the key carries that value and its `IsExpired` is false at
that time; for an entry whose `IsExpired` is true `Get` reports not-found. -/
theorem C3_get_never_returns_expired {α : Type} (evict : Bool) (data : CacheTable α)
    (now : Int) (key : String) :
    (∀ v, (CacheStore.Get evict data now key).1 = some v →
      ∃ item, data key = some item ∧ item.v = v ∧ item.IsExpired now = false) ∧
    (∀ item, data key = some item → item.IsExpired now = true →
      (CacheStore.Get evict data now key).1 = none) := by
  unfold CacheStore.Get
  constructor
  · intro v hv
    cases hd : data key with
    | none => simp [hd] at hv
    | some item =>
      cases he : item.IsExpired now with
      | true => simp [hd, he] at hv
      | false =>
        simp [hd, he] at hv
        exact ⟨item, rfl, hv, he⟩
  · intro item hd he
    simp [hd, he]

/-- The read path is not empty: an entry that is stored and not expired is returned
with found = true, and the table is left as it was. -/
theorem cacheStore_get_alive {α : Type} (evict : Bool) (data : CacheTable α) (now : Int)
    (key : String) (item : adapterMemoryItem α) (hd : data key = some item)
    (he : item.IsExpired now = false) :
    CacheStore.Get evict data now key = (some item.v, data) := by
  simp [CacheStore.Get, hd, he]

/-! ## Theorems: expire-bucket index -/

theorem getOrNew_of_some (st : IndexState) (key : Int) (a : Nat)
    (h : st.d.expireSets key = some (some a)) :
    adapterMemoryExpireSets.GetOrNew st key = (some a, st) := by
  simp [adapterMemoryExpireSets.GetOrNew, adapterMemoryExpireSets.Get, h]

theorem getOrNew_of_none (st : IndexState) (key : Int) (h : st.d.expireSets key = none) :
    adapterMemoryExpireSets.GetOrNew st key =
      (some st.sets.length,
        { sets := st.sets ++ [[]],
          d := { expireSets := Function.update st.d.expireSets key (some (some st.sets.length)) } }) := by
  simp [adapterMemoryExpireSets.GetOrNew, adapterMemoryExpireSets.Get, h, ysetNew]

theorem storedAllocated_getOrNew (st : IndexState) (key : Int) (h : StoredAllocated st) :
    StoredAllocated (adapterMemoryExpireSets.GetOrNew st key).2 := by
  cases hk : st.d.expireSets key with
  | some q =>
    obtain ⟨a, rfl, _⟩ := h key q hk
    rw [getOrNew_of_some st key a hk]
    exact h
  | none =>
    rw [getOrNew_of_none st key hk]
    intro k p hp
    by_cases hkk : k = key
    · subst hkk
      simp at hp
      subst hp
      exact ⟨st.sets.length, rfl, by simp⟩
    · simp [Function.update_noteq hkk] at hp
      obtain ⟨a, rfl, ha⟩ := h k p hp
      exact ⟨a, rfl, by simp; omega⟩

theorem storedAllocated_delete (st : IndexState) (key : Int) (h : StoredAllocated st) :
    StoredAllocated (adapterMemoryExpireSets.Delete st key) := by
  intro k p hp
  unfold adapterMemoryExpireSets.Delete at hp
  by_cases hkk : k = key
  · subst hkk
    simp at hp
  · simp [Function.update_noteq hkk] at hp
    exact h k p hp

theorem storedAllocated_add (st : IndexState) (a : Nat) (key : String) (h : StoredAllocated st) :
    StoredAllocated (ysetAdd st a key) := by
  intro k p hp
  unfold ysetAdd at hp ⊢
  cases hs : st.sets[a]? with
  | none =>
    simp only [hs] at hp ⊢
    exact h k p hp
  | some ms =>
    simp only [hs] at hp ⊢
    obtain ⟨b, rfl, hb⟩ := h k p hp
    exact ⟨b, rfl, by simpa using hb⟩

theorem storedAllocated_of_reachable (st : IndexState) (h : Reachable st) :
    StoredAllocated st := by
  induction h with
  | init sets => intro k p hp; simp [newAdapterMemoryExpireSets] at hp
  | get st key _ ih => exact ih
  | getOrNew st key _ ih => exact storedAllocated_getOrNew st key ih
  | delete st key _ ih => exact storedAllocated_delete st key ih
  | add st a key _ ih => exact storedAllocated_add st a key ih

theorem noNilStored_of_reachable (st : IndexState) (h : Reachable st) : NoNilStored st := by
  intro key hk
  obtain ⟨a, ha, _⟩ := storedAllocated_of_reachable st h key none hk
  exact absurd ha (by simp)

/-- C4: for every index state and every bucket key `k`, after `Delete(k)` the lookup
`Get(k)` returns nil, whatever was stored under `k` before (nothing, a set without
members or a set with members). -/
theorem C4_get_after_delete (st : IndexState) (k : Int) :
    (adapterMemoryExpireSets.Get (adapterMemoryExpireSets.Delete st k) k).1 = none := by
  simp [adapterMemoryExpireSets.Get, adapterMemoryExpireSets.Delete]

/-- C5: `GetOrNew` is idempotent in sequential use. In every index state that stores
no nil pointer (every state reachable from `newAdapterMemoryExpireSets()`),
`GetOrNew(k)` returns a non-nil set; if a bucket is stored under `k` it is that set and
the state is unchanged; otherwise the result is a freshly allocated set with no
members and the index changes only by storing it under `k`; a following
`GetOrNew(k)` or `Get(k)` returns the same set and leaves the state unchanged. -/
theorem C5_getOrNew_idempotent (st : IndexState) (k : Int) (h : NoNilStored st) :
    (adapterMemoryExpireSets.GetOrNew st k).1 ≠ none ∧
    (∀ p, st.d.expireSets k = some p →
      (adapterMemoryExpireSets.GetOrNew st k).1 = p ∧
      (adapterMemoryExpireSets.GetOrNew st k).2 = st) ∧
    (st.d.expireSets k = none →
      members st (adapterMemoryExpireSets.GetOrNew st k).1 = none ∧
      members (adapterMemoryExpireSets.GetOrNew st k).2
        (adapterMemoryExpireSets.GetOrNew st k).1 = some [] ∧
      (adapterMemoryExpireSets.GetOrNew st k).2.sets = st.sets ++ [[]] ∧
      (adapterMemoryExpireSets.GetOrNew st k).2.d.expireSets =
        Function.update st.d.expireSets k (some (adapterMemoryExpireSets.GetOrNew st k).1)) ∧
    adapterMemoryExpireSets.GetOrNew (adapterMemoryExpireSets.GetOrNew st k).2 k =
      adapterMemoryExpireSets.GetOrNew st k ∧
    adapterMemoryExpireSets.Get (adapterMemoryExpireSets.GetOrNew st k).2 k =
      adapterMemoryExpireSets.GetOrNew st k := by
  cases hk : st.d.expireSets k with
  | some q =>
    cases q with
    | none => exact absurd hk (h k)
    | some a =>
      rw [getOrNew_of_some st k a hk]
      refine ⟨by simp, ?_, by simp, ?_, ?_⟩
      · intro p hp
        simp at hp
        exact ⟨hp, rfl⟩
      · exact getOrNew_of_some st k a hk
      · simp [adapterMemoryExpireSets.Get, hk]
  | none =>
    rw [getOrNew_of_none st k hk]
    refine ⟨by simp, by simp, ?_, ?_, ?_⟩
    · intro _
      simp [members]
    · exact getOrNew_of_some _ k st.sets.length (by simp)
    · simp [adapterMemoryExpireSets.Get]

/-- C5 (witness): the empty index at key 7. -/
theorem C5_getOrNew_idempotent_witness :
    NoNilStored { sets := [], d := newAdapterMemoryExpireSets } ∧
    (adapterMemoryExpireSets.GetOrNew { sets := [], d := newAdapterMemoryExpireSets } 7).1
      = some 0 ∧
    adapterMemoryExpireSets.GetOrNew
        (adapterMemoryExpireSets.GetOrNew { sets := [], d := newAdapterMemoryExpireSets } 7).2 7 =
      adapterMemoryExpireSets.GetOrNew { sets := [], d := newAdapterMemoryExpireSets } 7 :=
  have h : NoNilStored { sets := [], d := newAdapterMemoryExpireSets } := by
    intro key
    simp [newAdapterMemoryExpireSets]
  ⟨h, by simp [getOrNew_of_none, newAdapterMemoryExpireSets],
    (C5_getOrNew_idempotent { sets := [], d := newAdapterMemoryExpireSets } 7 h).2.2.2.1⟩

/-- C6: `Get` is a read-only lookup: it returns the set stored under `k`, nil when
none is stored, and the state after the call (the index map and every set) equals
the state before it. -/
theorem C6_get_read_only (st : IndexState) (k : Int) :
    (∀ p, st.d.expireSets k = some p → (adapterMemoryExpireSets.Get st k).1 = p) ∧
    (st.d.expireSets k = none → (adapterMemoryExpireSets.Get st k).1 = none) ∧
    (adapterMemoryExpireSets.Get st k).2 = st ∧
    (adapterMemoryExpireSets.Get st k).2.d.expireSets = st.d.expireSets := by
  refine ⟨?_, ?_, rfl, rfl⟩
  · intro p hp
    simp [adapterMemoryExpireSets.Get, hp]
  · intro hp
    simp [adapterMemoryExpireSets.Get, hp]

/-- C7 (counterexample): the state after `GetOrNew(5)` on the new index is reachable
and stores under key 5 a bucket with zero member keys. -/
theorem C7_counterexample :
    Reachable (adapterMemoryExpireSets.GetOrNew
      { sets := [], d := newAdapterMemoryExpireSets } 5).2 ∧
    (adapterMemoryExpireSets.GetOrNew
      { sets := [], d := newAdapterMemoryExpireSets } 5).2.d.expireSets 5 = some (some 0) ∧
    members (adapterMemoryExpireSets.GetOrNew
      { sets := [], d := newAdapterMemoryExpireSets } 5).2 (some 0) = some [] := by
  refine ⟨Reachable.getOrNew _ 5 (Reachable.init []), ?_, ?_⟩
  · simp [getOrNew_of_none, newAdapterMemoryExpireSets]
  · simp [getOrNew_of_none, newAdapterMemoryExpireSets, members]

/-- A bucket with members is reachable as well: after `GetOrNew(5)` on the new index
and two additions to the set handed out, bucket 5 holds two keys. -/
theorem reachable_bucket_with_members :
    Reachable (ysetAdd (ysetAdd (adapterMemoryExpireSets.GetOrNew
      { sets := [], d := newAdapterMemoryExpireSets } 5).2 0 "a") 0 "b") ∧
    members (ysetAdd (ysetAdd (adapterMemoryExpireSets.GetOrNew
      { sets := [], d := newAdapterMemoryExpireSets } 5).2 0 "a") 0 "b") (some 0)
      = some ["b", "a"] := by
  refine ⟨Reachable.add _ 0 "b" (Reachable.add _ 0 "a"
    (Reachable.getOrNew _ 5 (Reachable.init []))), ?_⟩
  simp [getOrNew_of_none, newAdapterMemoryExpireSets, members, ysetAdd]

/-- C7 (amended): in every state reachable from `newAdapterMemoryExpireSets()` by `Get`,
`GetOrNew` and `Delete` calls (and by callers adding keys to the sets), every bucket
stored in the index is a non-nil allocated set, and a bucket with zero member keys
can be stored: `GetOrNew(j)` on a missing key stores a new bucket without members. A
stored bucket, with or without members, stays stored with its members across `Get`
and `GetOrNew` of any key and `Delete` of another key, and stays stored when keys are
added to sets; only `Delete(k)` removes it. -/
theorem C7_reachable_buckets (st : IndexState) (h : Reachable st) (k : Int) (p : SetPtr)
    (hp : st.d.expireSets k = some p) :
    (p ≠ none ∧ ∃ ms, members st p = some ms) ∧
    (∀ j, st.d.expireSets j = none →
      ∃ a, (adapterMemoryExpireSets.GetOrNew st j).2.d.expireSets j = some (some a) ∧
        members (adapterMemoryExpireSets.GetOrNew st j).2 (some a) = some []) ∧
    (∀ j, (adapterMemoryExpireSets.Get st j).2.d.expireSets k = some p ∧
      members (adapterMemoryExpireSets.Get st j).2 p = members st p) ∧
    (∀ j, (adapterMemoryExpireSets.GetOrNew st j).2.d.expireSets k = some p ∧
      members (adapterMemoryExpireSets.GetOrNew st j).2 p = members st p) ∧
    (∀ j, j ≠ k → (adapterMemoryExpireSets.Delete st j).d.expireSets k = some p ∧
      members (adapterMemoryExpireSets.Delete st j) p = members st p) ∧
    (∀ b key, (ysetAdd st b key).d.expireSets k = some p) ∧
    (adapterMemoryExpireSets.Delete st k).d.expireSets k = none := by
  have hall := storedAllocated_of_reachable st h
  obtain ⟨a, rfl, ha⟩ := hall k p hp
  refine ⟨⟨by simp, ?_⟩, ?_, ?_, ?_, ?_, ?_, ?_⟩
  · exact ⟨st.sets[a], by simp [members, ha]⟩
  · intro j hj
    rw [getOrNew_of_none st j hj]
    exact ⟨st.sets.length, by simp, by simp [members]⟩
  · intro j
    exact ⟨hp, rfl⟩
  · intro j
    cases hj : st.d.expireSets j with
    | some q =>
      obtain ⟨b, rfl, _⟩ := hall j q hj
      rw [getOrNew_of_some st j b hj]
      exact ⟨hp, rfl⟩
    | none =>
      rw [getOrNew_of_none st j hj]
      have hjk : k ≠ j := by
        intro e
        rw [e, hj] at hp
        simp at hp
      refine ⟨by simp [Function.update_noteq hjk, hp], ?_⟩
      simp [members, List.getElem?_append_left ha]
  · intro j hjk
    exact ⟨by simp [adapterMemoryExpireSets.Delete, Function.update_noteq (Ne.symm hjk), hp], rfl⟩
  · intro b key
    unfold ysetAdd
    split <;> exact hp
  · simp [adapterMemoryExpireSets.Delete]

/-- C7 (witness): the reachable state after `GetOrNew(5)` on the new index, whose
bucket 5 is the set at address 0; it is still stored after `Delete(6)`. -/
theorem C7_reachable_buckets_witness :
    Reachable (adapterMemoryExpireSets.GetOrNew
      { sets := [], d := newAdapterMemoryExpireSets } 5).2 ∧
    (adapterMemoryExpireSets.GetOrNew
      { sets := [], d := newAdapterMemoryExpireSets } 5).2.d.expireSets 5 = some (some 0) ∧
    (adapterMemoryExpireSets.Delete (adapterMemoryExpireSets.GetOrNew
      { sets := [], d := newAdapterMemoryExpireSets } 5).2 6).d.expireSets 5 = some (some 0) ∧
    (adapterMemoryExpireSets.Delete (adapterMemoryExpireSets.GetOrNew
      { sets := [], d := newAdapterMemoryExpireSets } 5).2 5).d.expireSets 5 = none :=
  have hr : Reachable (adapterMemoryExpireSets.GetOrNew
      { sets := [], d := newAdapterMemoryExpireSets } 5).2 :=
    Reachable.getOrNew _ 5 (Reachable.init [])
  have hs : (adapterMemoryExpireSets.GetOrNew
      { sets := [], d := newAdapterMemoryExpireSets } 5).2.d.expireSets 5 = some (some 0) := by
    simp [getOrNew_of_none, newAdapterMemoryExpireSets]
  ⟨hr, hs, ((C7_reachable_buckets _ hr 5 (some 0) hs).2.2.2.2.1 6 (by decide)).1,
    (C7_reachable_buckets _ hr 5 (some 0) hs).2.2.2.2.2.2⟩

/-! ## Theorems: `ReplaceFileFunc` -/

/-- When the callback's result has the same length in bytes as the old content,
`ReplaceFileFunc` returns nil without calling `PutContents`, whatever the result is. -/
theorem replaceFileFunc_same_length {FS Err : Type} (get : FS → String → String)
    (put : FS → String → String → Option Err × FS) (f : String → String → String)
    (path : String) (fs : FS)
    (h : (get fs path).utf8ByteSize = (f path (get fs path)).utf8ByteSize) :
    Yfile.ReplaceFileFunc get put f path fs = (none, fs) := by
  simp [Yfile.ReplaceFileFunc, h]

/-- C9 (failing input): the file `a.txt` holds `abc` and the callback returns `abd`.
`ReplaceFileFunc` returns nil, and the file still holds `abc`, not the callback's
result `abd`: contents of equal length are never written. -/
theorem C9_replaceFileFunc_same_length_lost :
    (Yfile.ReplaceFileFunc Yfile.MemFS.GetContents Yfile.MemFS.PutContents
      (fun _ _ => "abd") "a.txt" [("a.txt", "abc")]).1 = none ∧
    Yfile.MemFS.GetContents
      (Yfile.ReplaceFileFunc Yfile.MemFS.GetContents Yfile.MemFS.PutContents
        (fun _ _ => "abd") "a.txt" [("a.txt", "abc")]).2 "a.txt" = "abc" ∧
    (fun (_ _ : String) => "abd") "a.txt"
      (Yfile.MemFS.GetContents [("a.txt", "abc")] "a.txt") = "abd" := by
  decide

/-! ## Theorems: comparators -/

/-- C10 (failing input): `a = 9223372036854775807`, `b = -1`. Here `a > b`, yet
`ComparatorInt(a, b)` is `-9223372036854775808`, a negative number: the subtraction
wraps around. -/
theorem C10_comparatorInt_overflow :
    (-1 : Int) < 9223372036854775807 ∧
    Yutil.ComparatorInt 9223372036854775807 (-1) = -9223372036854775808 ∧
    Yutil.ComparatorInt 9223372036854775807 (-1) < 0 := by
  decide

/-- Where the exact difference fits a Go `int`, `ComparatorInt` has the sign the
`Comparator` contract asks for. -/
theorem comparatorInt_sign_of_no_overflow (a b : Int)
    (h : -2 ^ 63 ≤ a - b ∧ a - b < 2 ^ 63) :
    (a < b → Yutil.ComparatorInt a b < 0) ∧
    (a = b → Yutil.ComparatorInt a b = 0) ∧
    (a > b → Yutil.ComparatorInt a b > 0) := by
  have e : Yutil.ComparatorInt a b = a - b := by
    unfold Yutil.ComparatorInt Yutil.wrapInt64
    omega
  rw [e]
  omega

/-- C11 (failing input): `a = 1`, `b = 2` as `uint8`. Here `a < b`, yet
`ComparatorUint8(a, b)` and `ComparatorByte(a, b)` are `255`, a positive number: the
`uint8` difference wraps before the conversion to `int`. -/
theorem C11_comparatorUint8_wraps :
    (1 : Int) < 2 ∧ Yutil.ComparatorUint8 1 2 = 255 ∧ Yutil.ComparatorByte 1 2 = 255 := by
  decide

/-- The `uint8` comparators never return a negative number, and for `uint8` values
`a < b` they return a positive one. -/
theorem comparatorUint8_nonneg (a b : Int) :
    0 ≤ Yutil.ComparatorUint8 a b ∧ 0 ≤ Yutil.ComparatorByte a b ∧
    (0 ≤ a → a < b → b < 256 → 0 < Yutil.ComparatorUint8 a b) := by
  unfold Yutil.ComparatorUint8 Yutil.ComparatorByte Yutil.wrapUint8
  refine ⟨by omega, by omega, ?_⟩
  intro h0 hab hb
  omega

/-! ## Theorems: `IsValidDataType` -/

theorem isValidDataType_cons (c : Char) (rest : List Char) :
    Yjson.IsValidDataType (String.mk (c :: rest)) =
      some (decide ((if c = '.' then String.mk rest else String.mk (c :: rest))
        ∈ Yjson.validDataTypes)) := by
  have hne : (String.mk (c :: rest)) ≠ "" := by
    intro h
    have := congrArg String.data h
    simp at this
  unfold Yjson.IsValidDataType Yjson.validDataTypes
  simp only [hne, if_false, List.getElem?_cons_zero, List.drop_succ_cons, List.drop_zero]
  generalize (if c = '.' then String.mk rest else String.mk (c :: rest)) = x
  by_cases hx : x = "json" ∨ x = "js" ∨ x = "xml" ∨ x = "yaml" ∨ x = "yml" ∨ x = "toml" ∨ x = "ini"
  · rw [if_pos hx]
    simp [hx]
  · rw [if_neg hx]
    simp only [List.mem_cons, List.mem_singleton, List.not_mem_nil, or_false] at *
    simp [hx]

theorem stripLeadingDot_cons (c : Char) (rest : List Char) :
    Yjson.stripLeadingDot (String.mk (c :: rest)) =
      if c = '.' then String.mk rest else String.mk (c :: rest) := by
  unfold Yjson.stripLeadingDot
  by_cases hc : c = '.'
  · subst hc
    simp
  · simp only [hc, if_false]
    split
    · rename_i r heq
      simp at heq
      exact absurd heq.1 hc
    · rfl

/-- C15: `IsValidDataType(t)` always returns (no index out of range), and it returns
true if and only if `t`, after removing at most one leading `'.'`, is one of "json",
"js", "xml", "yaml", "yml", "toml", "ini"; it returns false for the empty string and
for ".". -/
theorem C15_isValidDataType (t : String) :
    (∃ b, Yjson.IsValidDataType t = some b) ∧
    (Yjson.IsValidDataType t = some true ↔
      Yjson.stripLeadingDot t ∈ Yjson.validDataTypes) ∧
    Yjson.IsValidDataType "" = some false ∧
    Yjson.IsValidDataType "." = some false := by
  refine ⟨?_, ?_, by decide, by decide⟩
  · obtain ⟨cs⟩ := t
    cases cs with
    | nil => exact ⟨false, by decide⟩
    | cons c rest => exact ⟨_, isValidDataType_cons c rest⟩
  · obtain ⟨cs⟩ := t
    cases cs with
    | nil => decide
    | cons c rest =>
      rw [isValidDataType_cons, stripLeadingDot_cons]
      simp

/-! ## Theorems: sessions -/

/-- C13: `SetId(id)` returns an error if and only if the session has started; with an
error the session is unchanged, with nil the id is the given id; `SetIdFunc(f)` does
the same for the id function. -/
theorem C13_setId (s : Session) (id : String) (f : Int → String) :
    ((Session.SetId s id).1.isSome = true ↔ s.start = true) ∧
    ((Session.SetId s id).1.isSome = true → (Session.SetId s id).2 = s) ∧
    ((Session.SetId s id).1 = none → (Session.SetId s id).2.id = id) ∧
    ((Session.SetIdFunc s f).1.isSome = true ↔ s.start = true) ∧
    ((Session.SetIdFunc s f).1.isSome = true → (Session.SetIdFunc s f).2 = s) ∧
    ((Session.SetIdFunc s f).1 = none → (Session.SetIdFunc s f).2.idFunc = some f) := by
  unfold Session.SetId Session.SetIdFunc
  cases hs : s.start <;> simp

/-- The storage block of `Close` leaves the TTL cache and the ttl as they were; it
makes no call for a clean session without entries. -/
theorem closeStorage_frame {σ C : Type} (E : Env σ C) (s : Session) (m : Manager σ C)
    (data : StrAnyMap) :
    (Session.closeStorage E s m data).2.sessionData = m.sessionData ∧
    (Session.closeStorage E s m data).2.ttl = m.ttl ∧
    (¬ (s.dirty = true ∨ data.Size > 0) → Session.closeStorage E s m data = (none, m)) := by
  unfold Session.closeStorage
  cases hst : m.storage with
  | none => simp
  | some st =>
    by_cases hd : s.dirty = true
    · simp [hd]
    · by_cases hz : data.Size > 0
      · simp [hd, hz]
      · simp [hd, hz]

/-- C18 (counterexample): a started, dirty session with id `sid` on a storage whose
write fails: `Close` panics with the storage error and the manager's TTL cache is
still empty, although the session has started, has an id and is dirty. -/
theorem C18_counterexample :
    (Session.Close sampleEnv
      { id := "sid", data := some { entries := [] }, dirty := true, start := true,
        idFunc := none }
      { ttl := 60, storage := some true, sessionData := [] }).1 = some "write failed" ∧
    (Session.Close sampleEnv
      { id := "sid", data := some { entries := [] }, dirty := true, start := true,
        idFunc := none }
      { ttl := 60, storage := some true, sessionData := [] }).2.sessionData = [] := by
  constructor <;> rfl

/-- C18 (amended): `Close` writes the session's data into the manager's TTL cache under
the key session id with ttl = manager.ttl if and only if the session has started,
its id is not empty, it is dirty or holds at least one key, and the storage call
made first reports no error: `SetSession(id, data, ttl)` when there is a storage and
the session is dirty, `UpdateTTL(id, ttl)` when there is a storage and the session is
clean with at least one key, no call without storage. When that call reports an
error `Close` panics with it and the cache is as before. A session that has not
started or has no id (with or without a data map), and a started session that is
clean and empty, change nothing; a started session with an id and no data map
panics with nothing changed. -/
theorem C18_close_cache {σ C : Type} (E : Env σ C) (s : Session) (m : Manager σ C) :
    (¬ (s.start = true ∧ s.id ≠ "") → Session.Close E s m = (none, m)) ∧
    (s.start = true → s.id ≠ "" → s.data = none →
      (Session.Close E s m).1 ≠ none ∧ (Session.Close E s m).2 = m) ∧
    (∀ data, s.start = true → s.id ≠ "" → s.data = some data →
      (s.dirty = false → data.Size = 0 → Session.Close E s m = (none, m)) ∧
      (m.storage = none → (s.dirty = true ∨ data.Size > 0) →
        Session.Close E s m =
          (none, { ttl := m.ttl, storage := none,
                   sessionData := E.cacheSet m.sessionData s.id data m.ttl })) ∧
      (∀ st, m.storage = some st → s.dirty = true →
        ((E.storageSetSession st s.id data m.ttl).1 = none →
          Session.Close E s m =
            (none, { ttl := m.ttl, storage := some (E.storageSetSession st s.id data m.ttl).2,
                     sessionData := E.cacheSet m.sessionData s.id data m.ttl })) ∧
        (∀ err, (E.storageSetSession st s.id data m.ttl).1 = some err →
          Session.Close E s m =
            (some err, { ttl := m.ttl, storage := some (E.storageSetSession st s.id data m.ttl).2,
                         sessionData := m.sessionData }))) ∧
      (∀ st, m.storage = some st → s.dirty = false → data.Size > 0 →
        ((E.storageUpdateTTL st s.id m.ttl).1 = none →
          Session.Close E s m =
            (none, { ttl := m.ttl, storage := some (E.storageUpdateTTL st s.id m.ttl).2,
                     sessionData := E.cacheSet m.sessionData s.id data m.ttl })) ∧
        (∀ err, (E.storageUpdateTTL st s.id m.ttl).1 = some err →
          Session.Close E s m =
            (some err, { ttl := m.ttl, storage := some (E.storageUpdateTTL st s.id m.ttl).2,
                         sessionData := m.sessionData })))) := by
  refine ⟨?_, ?_, ?_⟩
  · intro hn
    unfold Session.Close
    simp only [hn, if_false]
  · intro h1 h2 h3
    unfold Session.Close
    simp [h1, h2, h3]
  · intro data h1 h2 h3
    refine ⟨?_, ?_, ?_, ?_⟩
    · intro hd hz
      unfold Session.Close Session.closeStorage
      cases hst : m.storage <;> simp [h1, h2, h3, hd, hz]
    · intro hst hc
      unfold Session.Close Session.closeStorage Manager.UpdateSessionTTL
      simp only [h1, h2, h3, hst, hc, ne_eq, not_false_eq_true, and_self, if_true]
    · intro st hst hd
      unfold Session.Close Session.closeStorage Manager.UpdateSessionTTL
      simp only [h1, h2, h3, hst, hd, ne_eq, not_false_eq_true, and_self, if_true, true_or]
      constructor
      · intro he
        generalize E.storageSetSession st s.id data m.ttl = r at he ⊢
        obtain ⟨e, st2⟩ := r
        simp only at he
        subst he
        rfl
      · intro err he
        generalize E.storageSetSession st s.id data m.ttl = r at he ⊢
        obtain ⟨e, st2⟩ := r
        simp only at he
        subst he
        rfl
    · intro st hst hd hz
      unfold Session.Close Session.closeStorage Manager.UpdateSessionTTL
      simp only [h1, h2, h3, hst, hd, hz, ne_eq, not_false_eq_true, and_self, if_true,
        Bool.false_eq_true, if_false, or_true]
      constructor
      · intro he
        generalize E.storageUpdateTTL st s.id m.ttl = r at he ⊢
        obtain ⟨e, st2⟩ := r
        simp only at he
        subst he
        rfl
      · intro err he
        generalize E.storageUpdateTTL st s.id m.ttl = r at he ⊢
        obtain ⟨e, st2⟩ := r
        simp only at he
        subst he
        rfl

/-- C18 (witness): a started, dirty session `sid` on the sample storage without write
failure: the cache receives the one `Set` call; the session as the manager makes it
(not started, no data map) changes nothing. -/
theorem C18_close_cache_witness :
    Session.Close sampleEnv
        { id := "sid", data := some { entries := [] }, dirty := true, start := true,
          idFunc := none }
        { ttl := 60, storage := some false, sessionData := [] }
      = (none, { ttl := 60, storage := some false,
                 sessionData := [("sid", { entries := [] }, 60)] }) ∧
    Session.Close sampleEnv
        { id := "sid", data := none, dirty := false, start := false, idFunc := none }
        { ttl := 60, storage := some false, sessionData := [] }
      = (none, { ttl := 60, storage := some false, sessionData := [] }) :=
  ⟨((C18_close_cache sampleEnv
      { id := "sid", data := some { entries := [] }, dirty := true, start := true,
        idFunc := none }
      { ttl := 60, storage := some false, sessionData := [] }).2.2
      { entries := [] } rfl (by decide) rfl).2.2.1 false rfl rfl |>.1 rfl,
    (C18_close_cache sampleEnv
      { id := "sid", data := none, dirty := false, start := false, idFunc := none }
      { ttl := 60, storage := some false, sessionData := [] }).1 (by simp)⟩

/-! ## Theorems: configuration -/

/-- C14: for every content `c` and file name `f`, `GetContent(f)` after `SetContent(c, f)`
returns `c`; leaving out the file argument in either call is the same as passing
"config.toml". -/
theorem C14_setContent_getContent (g : Ycfg.Globals) (c f : String) (more : List String) :
    Ycfg.GetContent (Ycfg.SetContent g c (f :: more)) (f :: more) = c ∧
    Ycfg.GetContent (Ycfg.SetContent g c [f]) [f] = c ∧
    Ycfg.SetContent g c [] = Ycfg.SetContent g c ["config.toml"] ∧
    Ycfg.GetContent g [] = Ycfg.GetContent g ["config.toml"] ∧
    Ycfg.GetContent (Ycfg.SetContent g c []) [] = c := by
  refine ⟨?_, ?_, rfl, rfl, ?_⟩ <;> simp [Ycfg.GetContent, Ycfg.SetContent]

/-- C17 (counterexample): the search paths are `/a` and `/b`, and `/b` is an existing
directory. `SetPath("/b")` returns nil and the search paths are still `/a` and `/b`,
not the single directory `/b`. -/
theorem C17_counterexample :
    Ycfg.Config.resolvePath Ycfg.allDirs
      { defaultName := "config.toml", searchPaths := ["/a", "/b"], jsonMap := fun _ => none,
        violenceCheck := false } "/b" = ("/b", true) ∧
    (Ycfg.Config.SetPath Ycfg.allDirs
      { defaultName := "config.toml", searchPaths := ["/a", "/b"], jsonMap := fun _ => none,
        violenceCheck := false } "/b").1 = none ∧
    (Ycfg.Config.SetPath Ycfg.allDirs
      { defaultName := "config.toml", searchPaths := ["/a", "/b"], jsonMap := fun _ => none,
        violenceCheck := false } "/b").2.searchPaths = ["/a", "/b"] := by
  decide

/-- C17 (amended): when `SetPath(path)` returns nil, the path resolved to an existing
directory and that directory is in the search path list afterwards; if it was not
in the list before the call, the list consists of exactly that one directory and
the parsed files are dropped; if it was already in the list, the config is left
as it was. -/
theorem C17_setPath (P : Ycfg.PathEnv) (c : Ycfg.Config) (path : String)
    (h : (Ycfg.Config.SetPath P c path).1 = none) :
    (Ycfg.Config.resolvePath P c path).1 ≠ "" ∧
    (Ycfg.Config.resolvePath P c path).2 = true ∧
    (Ycfg.Config.resolvePath P c path).1 ∈ (Ycfg.Config.SetPath P c path).2.searchPaths ∧
    ((Ycfg.Config.resolvePath P c path).1 ∉ c.searchPaths →
      (Ycfg.Config.SetPath P c path).2.searchPaths = [(Ycfg.Config.resolvePath P c path).1] ∧
      ∀ name, (Ycfg.Config.SetPath P c path).2.jsonMap name = none) ∧
    ((Ycfg.Config.resolvePath P c path).1 ∈ c.searchPaths →
      (Ycfg.Config.SetPath P c path).2 = c) := by
  unfold Ycfg.Config.SetPath at h ⊢
  generalize Ycfg.Config.resolvePath P c path = r at h ⊢
  by_cases h1 : r.1 = ""
  · simp [h1] at h
  · by_cases h2 : r.2 = false
    · simp [h1, h2] at h
    · have h2t : r.2 = true := by simpa using h2
      by_cases h3 : r.1 ∈ c.searchPaths
      · have hs : Ycfg.strArraySearch c.searchPaths r.1 ≠ -1 := by
          unfold Ycfg.strArraySearch
          simp only [h3, if_true]
          omega
        refine ⟨h1, h2t, ?_, fun hn => absurd h3 hn, fun _ => ?_⟩
        · rw [if_neg h1, if_neg h2, if_pos hs]
          exact h3
        · rw [if_neg h1, if_neg h2, if_pos hs]
      · have hs : ¬ (Ycfg.strArraySearch c.searchPaths r.1 ≠ -1) := by
          unfold Ycfg.strArraySearch
          simp [h3]
        refine ⟨h1, h2t, ?_, fun _ => ?_, fun hm => absurd hm h3⟩
        · rw [if_neg h1, if_neg h2, if_neg hs]
          simp
        · rw [if_neg h1, if_neg h2, if_neg hs]
          exact ⟨rfl, fun _ => rfl⟩

/-- C17 (witness): `SetPath("/b")` on a config whose only search path is `/a`. -/
theorem C17_setPath_witness :
    (Ycfg.Config.SetPath Ycfg.allDirs
      { defaultName := "config.toml", searchPaths := ["/a"], jsonMap := fun _ => none,
        violenceCheck := false } "/b").1 = none ∧
    (Ycfg.Config.resolvePath Ycfg.allDirs
      { defaultName := "config.toml", searchPaths := ["/a"], jsonMap := fun _ => none,
        violenceCheck := false } "/b").1 ∈
      (Ycfg.Config.SetPath Ycfg.allDirs
        { defaultName := "config.toml", searchPaths := ["/a"], jsonMap := fun _ => none,
          violenceCheck := false } "/b").2.searchPaths :=
  have h : (Ycfg.Config.SetPath Ycfg.allDirs
      { defaultName := "config.toml", searchPaths := ["/a"], jsonMap := fun _ => none,
        violenceCheck := false } "/b").1 = none := by decide
  ⟨h, (C17_setPath Ycfg.allDirs _ "/b" h).2.2.1⟩

/-! ## Theorems: cron entry -/

theorem wrapInt64_of_range (x : Int) (h1 : -2 ^ 63 ≤ x) (h2 : x < 2 ^ 63) :
    Yutil.wrapInt64 x = x := by
  unfold Yutil.wrapInt64
  omega

/-- One `check` with the schedule met and the cron running, on a counter of at least
1000000002: the job is executed and the counter stays at least 1000000002. -/
theorem check_large (d : Int) (e : Ycron.Entry) (hd1 : 1000000002 ≤ d) (hd2 : d < 2 ^ 63)
    (h1 : 1000000002 ≤ e.times) (h2 : e.times < 2 ^ 63) :
    (Ycron.Entry.check d true Ycron.Status.running e).runs = e.runs + 1 ∧
    1000000002 ≤ (Ycron.Entry.check d true Ycron.Status.running e).times ∧
    (Ycron.Entry.check d true Ycron.Status.running e).times < 2 ^ 63 := by
  have hw : Yutil.wrapInt64 (e.times - 1) = e.times - 1 :=
    wrapInt64_of_range _ (by omega) (by omega)
  have hpos : ¬ (e.times - 1 ≤ 0) := by omega
  unfold Ycron.Entry.check
  simp only [if_true, hw, hpos, if_false]
  unfold Ycron.Entry.runJob Ycron.Entry.Close
  by_cases hr : e.times - 1 < 2000000000 ∧ e.times - 1 > 1000000000
  · simp only [hr, and_self, if_true]
    split <;> simp <;> omega
  · simp only [hr, if_false]
    split <;> simp <;> omega

/-- With a counter of at least 1000000002, every one of `k` checks executes the job. -/
theorem checks_large (d : Int) (hd1 : 1000000002 ≤ d) (hd2 : d < 2 ^ 63) (k : Nat) :
    ∀ e : Ycron.Entry, 1000000002 ≤ e.times → e.times < 2 ^ 63 →
      (Ycron.Entry.checks d (List.replicate k (true, Ycron.Status.running)) e).runs
        = e.runs + k := by
  induction k with
  | zero => intro e _ _; simp [Ycron.Entry.checks]
  | succ k ih =>
    intro e h1 h2
    obtain ⟨hr, ht1, ht2⟩ := check_large d e hd1 hd2 h1 h2
    rw [List.replicate_succ, Ycron.Entry.checks, ih _ ht1 ht2, hr]
    omega

/-- C16 (counterexample): with `defaultTimes = 2147483647`, after `SetTimes(1000000002)`
a sequence of 1000000003 checks (schedule met, cron running) executes the job
1000000003 times, more than the 1000000002 that were set. -/
theorem C16_counterexample :
    (Ycron.Entry.checks 2147483647
      (List.replicate 1000000003 (true, Ycron.Status.running))
      (Ycron.Entry.SetTimes
        { times := 2147483647, timerStatus := Ycron.Status.running, removed := false, runs := 0 }
        1000000002)).runs = 1000000003 := by
  rw [checks_large 2147483647 (by decide) (by decide) 1000000003 _ (by decide) (by decide)]
  rfl

/-- One `check`, whatever its inputs, on a counter of at most 1000000001 that does
not wrap: the counter stays at most 1000000001, drops by at most one, and the
executions so far plus the runs still allowed by the counter do not grow. -/
theorem check_small (d : Int) (meet : Bool) (st : Ycron.Status) (e : Ycron.Entry)
    (h1 : e.times ≤ 1000000001) (h2 : -2 ^ 63 < e.times) :
    (Ycron.Entry.check d meet st e).times ≤ 1000000001 ∧
    e.times - 1 ≤ (Ycron.Entry.check d meet st e).times ∧
    ((Ycron.Entry.check d meet st e).runs : Int) + max (Ycron.Entry.check d meet st e).times 0
      ≤ (e.runs : Int) + max e.times 0 := by
  have hw : Yutil.wrapInt64 (e.times - 1) = e.times - 1 :=
    wrapInt64_of_range _ (by omega) (by omega)
  have hr : ¬ (e.times - 1 < 2000000000 ∧ e.times - 1 > 1000000000) := by omega
  unfold Ycron.Entry.check
  cases meet with
  | false => simp; omega
  | true =>
    cases st with
    | stopped => simp; omega
    | closed => simp [Ycron.Entry.Close]; omega
    | ready =>
      simp only [if_true, hw]
      unfold Ycron.Entry.runJob Ycron.Entry.Close
      simp only [hr, if_false]
      split_ifs <;> simp <;> omega
    | running =>
      simp only [if_true, hw]
      unfold Ycron.Entry.runJob Ycron.Entry.Close
      simp only [hr, if_false]
      split_ifs <;> simp <;> omega

theorem checks_small (d : Int) (inputs : List (Bool × Ycron.Status)) :
    ∀ e : Ycron.Entry, e.times ≤ 1000000001 → -2 ^ 63 ≤ e.times - inputs.length →
      ((Ycron.Entry.checks d inputs e).runs : Int) ≤ (e.runs : Int) + max e.times 0 := by
  induction inputs with
  | nil => intro e _ _; simp only [Ycron.Entry.checks]; omega
  | cons c rest ih =>
    intro e h1 h2
    simp only [List.length_cons, Nat.cast_succ] at h2
    obtain ⟨ht, hl, hp⟩ := check_small d c.1 c.2 e h1 (by omega)
    have := ih (Ycron.Entry.check d c.1 c.2 e) ht (by omega)
    simp only [Ycron.Entry.checks]
    omega

/-- C16 (amended): for every `n` with `1 <= n <= 1000000001`, after `SetTimes(n)`, over
any sequence of at most 2^63 calls to `check` (whatever the schedule and the cron
status at each call) the job callback is executed at most `n` times. A larger `n` is
no limit: the counter is reset to `defaultTimes` while it lies between 1000000000
and 2000000000. -/
theorem C16_times_bound (d : Int) (n : Int) (inputs : List (Bool × Ycron.Status))
    (e : Ycron.Entry) (hn1 : 1 ≤ n) (hn2 : n ≤ 1000000001)
    (hlen : (inputs.length : Int) ≤ 2 ^ 63) :
    ((Ycron.Entry.checks d inputs (e.SetTimes n)).runs : Int) ≤ (e.runs : Int) + n := by
  have h := checks_small d inputs (e.SetTimes n) (by simpa [Ycron.Entry.SetTimes] using hn2)
    (by simp only [Ycron.Entry.SetTimes]; omega)
  simp only [Ycron.Entry.SetTimes] at h ⊢
  omega

/-- C16 (witness): `SetTimes(2)` and three checks with the schedule met and the cron
running: the job is executed at most (here exactly) two times. -/
theorem C16_times_bound_witness :
    (1 : Int) ≤ 2 ∧ (2 : Int) ≤ 1000000001 ∧
    ((Ycron.Entry.checks 2147483647
        [(true, Ycron.Status.running), (true, Ycron.Status.running), (true, Ycron.Status.running)]
        (Ycron.Entry.SetTimes
          { times := 2147483647, timerStatus := Ycron.Status.running, removed := false, runs := 0 }
          2)).runs : Int) ≤ ((0 : Nat) : Int) + 2 :=
  ⟨by decide, by decide,
    C16_times_bound 2147483647 2
      [(true, Ycron.Status.running), (true, Ycron.Status.running), (true, Ycron.Status.running)]
      { times := 2147483647, timerStatus := Ycron.Status.running, removed := false, runs := 0 }
      (by decide) (by decide) (by decide)⟩

/-! ## Theorems: file content cache -/

/-- C19 (counterexample): the file `a.txt` holds `data`. A first call at time 0 without
a duration stores it with the default of 60000 ms; a second call at time 0 with the
duration 5 returns the cached bytes and stores nothing: the entry still has the
expiry 60000 of the default, not 5, and no second callback is registered. -/
theorem C19_counterexample :
    (Yfile.GetBytesWithCache 9223372036854 60000
      (fun p => if p = "a.txt" then some "data" else none)
      (Yfile.GetBytesWithCache 9223372036854 60000
        (fun p => if p = "a.txt" then some "data" else none)
        { cache := fun _ => none, watches := [] } 0 "a.txt" []).2
      0 "a.txt" [5]).2.cache (Yfile.cacheKey "a.txt")
      = some { v := some "data", e := 60000 } ∧
    (Yfile.GetBytesWithCache 9223372036854 60000
      (fun p => if p = "a.txt" then some "data" else none)
      (Yfile.GetBytesWithCache 9223372036854 60000
        (fun p => if p = "a.txt" then some "data" else none)
        { cache := fun _ => none, watches := [] } 0 "a.txt" []).2
      0 "a.txt" [5]).2.watches.length = 1 := by
  decide

/-- C19 (amended): for every path whose file content is non-nil: when the cache holds
no live entry under `cacheKey(path)`, `GetBytesWithCache(path, d...)` returns the bytes,
stores them under the key `cacheKey(path)` with TTL `d[0]` when a duration is supplied
and the configured default otherwise, leaves every other key as it was, and
registers for the path one callback that, when fired, removes the entry of exactly
that key and of no other key; when the cache holds a live entry under the key, the
cached value is returned and neither the cache nor the callbacks change. -/
theorem C19_getBytesWithCache (forever cacheExpire : Int) (GetBytes : String → Option String)
    (w : Yfile.CacheWorld) (now : Int) (path : String) (duration : List Int) (b : String)
    (hb : GetBytes path = some b) :
    ((CacheStore.Get false w.cache now (Yfile.cacheKey path)).1 = none →
      (Yfile.GetBytesWithCache forever cacheExpire GetBytes w now path duration).1 = some b ∧
      (Yfile.GetBytesWithCache forever cacheExpire GetBytes w now path duration).2.cache =
        CacheStore.Set forever w.cache now (Yfile.cacheKey path) (some b)
          (duration.headD cacheExpire) ∧
      (∀ k, k ≠ Yfile.cacheKey path →
        (Yfile.GetBytesWithCache forever cacheExpire GetBytes w now path duration).2.cache k =
          w.cache k) ∧
      ∃ cb : Yfile.FileCache → Yfile.FileCache,
        (Yfile.GetBytesWithCache forever cacheExpire GetBytes w now path duration).2.watches =
          (path, cb) :: w.watches ∧
        ∀ c : Yfile.FileCache, cb c (Yfile.cacheKey path) = none ∧
          ∀ k, k ≠ Yfile.cacheKey path → cb c k = c k) ∧
    (∀ v, (CacheStore.Get false w.cache now (Yfile.cacheKey path)).1 = some v →
      Yfile.GetBytesWithCache forever cacheExpire GetBytes w now path duration = (v, w)) := by
  have hexp : (match duration with
      | d :: _ => d
      | [] => cacheExpire) = duration.headD cacheExpire := by
    cases duration <;> rfl
  constructor
  · intro hmiss
    unfold Yfile.GetBytesWithCache CacheStore.GetOrSetFuncLock
    simp only [hmiss, hb, hexp, ne_eq, reduceCtorEq, not_false_eq_true, if_true]
    refine ⟨trivial, trivial, ?_, _, rfl, ?_⟩
    · intro k hk
      simp [CacheStore.Set, Function.update_noteq hk]
    · intro c
      refine ⟨by simp [CacheStore.Remove], ?_⟩
      intro k hk
      simp [CacheStore.Remove, Function.update_noteq hk]
  · intro v hv
    unfold Yfile.GetBytesWithCache CacheStore.GetOrSetFuncLock
    simp only [hv]

/-- C19 (witness): the file `a.txt` with content `data`, an empty cache, time 0 and the
duration 5: the bytes are stored with the expiry 0 + 5. -/
theorem C19_getBytesWithCache_witness :
    (Yfile.GetBytesWithCache 9223372036854 60000
      (fun p => if p = "a.txt" then some "data" else none)
      { cache := fun _ => none, watches := [] } 0 "a.txt" [5]).2.cache =
    CacheStore.Set 9223372036854 (fun _ => none) 0 (Yfile.cacheKey "a.txt") (some "data") 5 :=
  ((C19_getBytesWithCache 9223372036854 60000
    (fun p => if p = "a.txt" then some "data" else none)
    { cache := fun _ => none, watches := [] } 0 "a.txt" [5] "data" (by decide)).1
    (by decide)).2.1
